import Mathlib

/-!
# Verification of the MicroContract (ContractGuard) analysis pipeline

Shallow embedding of the contract-analysis pipeline of this repository:

* `src/unnamed/part_002` (`services/contractAnalyzer.ts`): `getGroqClient`,
  `extractTextFromFile`, `analyzeContract` — including the response cleaning
  `response.replace(/```json\n?|\n?```/g, '').trim()`, `JSON.parse`, and the
  normalization into an `AnalysisResult`.
* `src/src/App.tsx`: `handleFileUpload` — extraction, the minimum-length guard
  `if (!contractText || contractText.trim().length < 100)`, the call to
  `analyzeContract` and the `catch` handler that stores the error message and
  clears the result.

Strings are modelled as `List Char` (`Str`).  External collaborators (the
`mammoth` DOCX library, the browser `FileReader`, and the Groq completion
endpoint) are modelled as explicit oracle arguments; the booleans
`networkInvoked` / `analyzeInvoked` / `contentRead` record which effects the
control flow reaches.  `JSON.parse` is embedded as an executable JSON parser
`jsonParse` producing JavaScript-like values `JSVal` (with `undefined` for the
JavaScript `undefined` produced by missing-property reads).
-/

abbrev Str := List Char

/-- The whitespace predicate behind JavaScript `String.prototype.trim`
(ASCII whitespace, NBSP, BOM and the Unicode space separators). -/
def jsWhitespace (c : Char) : Bool :=
  c = ' ' || c = '\t' || c = '\n' || c = '\r' ||
  c.toNat = 0xb || c.toNat = 0xc || c.toNat = 0xa0 || c.toNat = 0xfeff ||
  c.toNat = 0x1680 || (0x2000 ≤ c.toNat && c.toNat ≤ 0x200a) ||
  c.toNat = 0x2028 || c.toNat = 0x2029 || c.toNat = 0x202f ||
  c.toNat = 0x205f || c.toNat = 0x3000

/-- JavaScript `s.trim()`: drop leading and trailing whitespace. -/
def jsTrim (s : Str) : Str :=
  ((s.dropWhile jsWhitespace).reverse.dropWhile jsWhitespace).reverse

/-- Model of `response.replace(/```json\n?|\n?```/g, '')`
(`analyzeContract`, part_002 line 147).  The JavaScript global replace scans
left to right; at each position it first tries the alternative
``` ```json\n? ``` (with the greedy optional newline) and then ``` \n?``` ```;
on a match it continues after the match, otherwise it keeps the character and
advances by one.  The six arms below are exactly those cases in priority
order. -/
def stripFences : Str → Str
  | '`' :: '`' :: '`' :: 'j' :: 's' :: 'o' :: 'n' :: '\n' :: rest => stripFences rest
  | '`' :: '`' :: '`' :: 'j' :: 's' :: 'o' :: 'n' :: rest => stripFences rest
  | '\n' :: '`' :: '`' :: '`' :: rest => stripFences rest
  | '`' :: '`' :: '`' :: rest => stripFences rest
  | c :: rest => c :: stripFences rest
  | [] => []

/-- The closing fence written by `wrap`. -/
def closeFence : Str := ['\n', '`', '`', '`']

/-- Wrap a payload in a fenced code block with the `json` language tag. -/
def wrapJsonFence (j : Str) : Str :=
  ['`', '`', '`', 'j', 's', 'o', 'n', '\n'] ++ j ++ closeFence

/-- Wrap a payload in a fenced code block without a language tag. -/
def wrapBareFence (j : Str) : Str :=
  ['`', '`', '`', '\n'] ++ j ++ closeFence

/-! ## JavaScript values and `JSON.parse` -/

/-- JavaScript values as far as this pipeline observes them: everything
`JSON.parse` can produce, plus `undefined` for the value that a
missing-property read yields.  A JSON number literal with mantissa `m` and
decimal exponent `e` denotes `m * 10 ^ e`. -/
inductive JSVal where
  | null
  | undefined
  | bool (b : Bool)
  | num (m : Int) (e : Int)
  | str (s : Str)
  | arr (elems : List JSVal)
  | obj (fields : List (Str × JSVal))

/-- JSON whitespace (RFC 8259: space, tab, line feed, carriage return). -/
def isJsonWs (c : Char) : Bool :=
  c = ' ' || c = '\t' || c = '\n' || c = '\r'

def skipWs (s : Str) : Str := s.dropWhile isJsonWs

def isDigitC (c : Char) : Bool := 48 ≤ c.toNat && c.toNat ≤ 57

def digitVal (c : Char) : Nat := c.toNat - 48

def digitsToNat (ds : Str) : Nat := ds.foldl (fun a c => 10 * a + digitVal c) 0

def hexVal? (c : Char) : Option Nat :=
  let n := c.toNat
  if 48 ≤ n && n ≤ 57 then some (n - 48)
  else if 97 ≤ n && n ≤ 102 then some (n - 87)
  else if 65 ≤ n && n ≤ 70 then some (n - 55)
  else none

/-- Parse the optional fraction part `('.' digits)?` of a JSON number,
returning the fraction digits and the remaining input. -/
def parseFrac : Str → Option (Str × Str)
  | '.' :: r =>
    let ds := r.takeWhile isDigitC
    if ds.isEmpty then none else some (ds, r.drop ds.length)
  | s => some ([], s)

/-- Parse the optional exponent part `([eE] [+-]? digits)?` of a JSON number. -/
def parseExp : Str → Option (Int × Str)
  | c :: r =>
    if c = 'e' || c = 'E' then
      match r with
      | '+' :: r2 =>
        let ds := r2.takeWhile isDigitC
        if ds.isEmpty then none else some ((digitsToNat ds : Int), r2.drop ds.length)
      | '-' :: r2 =>
        let ds := r2.takeWhile isDigitC
        if ds.isEmpty then none else some (-(digitsToNat ds : Int), r2.drop ds.length)
      | r2 =>
        let ds := r2.takeWhile isDigitC
        if ds.isEmpty then none else some ((digitsToNat ds : Int), r2.drop ds.length)
    else some (0, c :: r)
  | [] => some (0, [])

/-- Parse a JSON number token `-? int frac? exp?` (leading zeros rejected). -/
def parseNumber (s : Str) : Option (JSVal × Str) :=
  let negs : Bool × Str := match s with
    | '-' :: r => (true, r)
    | _ => (false, s)
  let neg := negs.1
  let s1 := negs.2
  let intDs := s1.takeWhile isDigitC
  if intDs.isEmpty then none
  else if decide (1 < intDs.length) && intDs.head? == some '0' then none
  else
    match parseFrac (s1.drop intDs.length) with
    | none => none
    | some (fracDs, s3) =>
      match parseExp s3 with
      | none => none
      | some (expV, s4) =>
        let mant : Nat := digitsToNat (intDs ++ fracDs)
        let m : Int := if neg then -(mant : Int) else (mant : Int)
        some (.num m (expV - (fracDs.length : Int)), s4)

/-- Parse the body of a JSON string literal (after the opening quote), with
the standard escape sequences; surrogate `\uXXXX` pairs are combined, a lone
surrogate becomes U+FFFD.  Fuelled; each step consumes at least one input
character, so fuel `length + 1` always suffices. -/
def parseStringBody : Nat → Str → Option (Str × Str)
  | 0, _ => none
  | _ + 1, [] => none
  | _ + 1, '"' :: r => some ([], r)
  | fuel + 1, '\\' :: esc =>
    match esc with
    | '"' :: r => (parseStringBody fuel r).map (fun p => ('"' :: p.1, p.2))
    | '\\' :: r => (parseStringBody fuel r).map (fun p => ('\\' :: p.1, p.2))
    | '/' :: r => (parseStringBody fuel r).map (fun p => ('/' :: p.1, p.2))
    | 'b' :: r => (parseStringBody fuel r).map (fun p => (Char.ofNat 8 :: p.1, p.2))
    | 'f' :: r => (parseStringBody fuel r).map (fun p => (Char.ofNat 12 :: p.1, p.2))
    | 'n' :: r => (parseStringBody fuel r).map (fun p => ('\n' :: p.1, p.2))
    | 'r' :: r => (parseStringBody fuel r).map (fun p => ('\r' :: p.1, p.2))
    | 't' :: r => (parseStringBody fuel r).map (fun p => ('\t' :: p.1, p.2))
    | 'u' :: h1 :: h2 :: h3 :: h4 :: r =>
      match hexVal? h1, hexVal? h2, hexVal? h3, hexVal? h4 with
      | some d1, some d2, some d3, some d4 =>
        let n := ((d1 * 16 + d2) * 16 + d3) * 16 + d4
        if n < 0xd800 || 0xdfff < n then
          (parseStringBody fuel r).map (fun p => (Char.ofNat n :: p.1, p.2))
        else if n < 0xdc00 then
          match r with
          | '\\' :: 'u' :: g1 :: g2 :: g3 :: g4 :: r2 =>
            match hexVal? g1, hexVal? g2, hexVal? g3, hexVal? g4 with
            | some e1, some e2, some e3, some e4 =>
              let m := ((e1 * 16 + e2) * 16 + e3) * 16 + e4
              if 0xdc00 ≤ m && m ≤ 0xdfff then
                (parseStringBody fuel r2).map
                  (fun p => (Char.ofNat (0x10000 + (n - 0xd800) * 0x400 + (m - 0xdc00)) :: p.1, p.2))
              else
                (parseStringBody fuel r).map (fun p => (Char.ofNat 0xfffd :: p.1, p.2))
            | _, _, _, _ =>
              (parseStringBody fuel r).map (fun p => (Char.ofNat 0xfffd :: p.1, p.2))
          | _ =>
            (parseStringBody fuel r).map (fun p => (Char.ofNat 0xfffd :: p.1, p.2))
        else
          (parseStringBody fuel r).map (fun p => (Char.ofNat 0xfffd :: p.1, p.2))
      | _, _, _, _ => none
    | _ => none
  | fuel + 1, c :: r =>
    if c.toNat < 0x20 then none
    else (parseStringBody fuel r).map (fun p => (c :: p.1, p.2))

mutual

/-- Parse one JSON value at the head of the input (no leading whitespace). -/
def parseValue : Nat → Str → Option (JSVal × Str)
  | 0, _ => none
  | fuel + 1, s =>
    match s with
    | [] => none
    | c :: r =>
      if c = '{' then
        match skipWs r with
        | '}' :: r2 => some (.obj [], r2)
        | r1 =>
          match parseMembers fuel r1 with
          | some (fs, rest) => some (.obj fs, rest)
          | none => none
      else if c = '[' then
        match skipWs r with
        | ']' :: r2 => some (.arr [], r2)
        | r1 =>
          match parseElements fuel r1 with
          | some (xs, rest) => some (.arr xs, rest)
          | none => none
      else if c = '"' then
        match parseStringBody (r.length + 1) r with
        | some (cs, rest) => some (.str cs, rest)
        | none => none
      else if c = 't' then
        match r with
        | 'r' :: 'u' :: 'e' :: r2 => some (.bool true, r2)
        | _ => none
      else if c = 'f' then
        match r with
        | 'a' :: 'l' :: 's' :: 'e' :: r2 => some (.bool false, r2)
        | _ => none
      else if c = 'n' then
        match r with
        | 'u' :: 'l' :: 'l' :: r2 => some (.null, r2)
        | _ => none
      else if c = '-' || isDigitC c then parseNumber (c :: r)
      else none

/-- Parse the members of a JSON object, starting at the first key. -/
def parseMembers : Nat → Str → Option (List (Str × JSVal) × Str)
  | 0, _ => none
  | fuel + 1, s =>
    match s with
    | '"' :: r =>
      match parseStringBody (r.length + 1) r with
      | some (key, r1) =>
        (match skipWs r1 with
         | ':' :: r2 =>
           match parseValue fuel (skipWs r2) with
           | some (v, r3) =>
             (match skipWs r3 with
              | ',' :: r4 =>
                match parseMembers fuel (skipWs r4) with
                | some (fs, rest) => some ((key, v) :: fs, rest)
                | none => none
              | '}' :: r4 => some ([(key, v)], r4)
              | _ => none)
           | none => none
         | _ => none)
      | none => none
    | _ => none

/-- Parse the elements of a JSON array, starting at the first element. -/
def parseElements : Nat → Str → Option (List JSVal × Str)
  | 0, _ => none
  | fuel + 1, s =>
    match parseValue fuel s with
    | some (v, r1) =>
      (match skipWs r1 with
       | ',' :: r2 =>
         match parseElements fuel (skipWs r2) with
         | some (xs, rest) => some (v :: xs, rest)
         | none => none
       | ']' :: r2 => some ([v], r2)
       | _ => none)
    | none => none

end

/-- Model of `JSON.parse`: parse one value surrounded by optional whitespace;
anything else raises a `SyntaxError`.  Fuel `2 * length + 2` always suffices
because every two nested calls consume at least one input character. -/
def jsonParse (s : Str) : Except String JSVal :=
  let s1 := skipWs s
  match parseValue (2 * s1.length + 2) s1 with
  | some (v, rest) =>
    if skipWs rest = [] then .ok v
    else .error ("SyntaxError: Unexpected non-whitespace character after JSON")
  | none => .error ("SyntaxError: Unexpected token in JSON")

/-! ## JavaScript object operations used by the normalizer -/

/-- JavaScript property lookup on an association list of own properties.  If a
key occurs twice (as `JSON.parse` resolves duplicates to the last occurrence)
the last binding wins. -/
def jsLookup : List (Str × JSVal) → Str → Option JSVal
  | [], _ => none
  | (k, v) :: fs, key =>
    match jsLookup fs key with
    | some w => some w
    | none => if k = key then some v else none

/-- JavaScript spread-update `{...fs, key: v}`: update `key` in place if present, append it otherwise. -/
def jsSet (fs : List (Str × JSVal)) (key : Str) (v : JSVal) : List (Str × JSVal) :=
  if fs.any (fun p => decide (p.1 = key)) then
    fs.map (fun p => if p.1 = key then (p.1, v) else p)
  else fs ++ [(key, v)]

/-- Decimal rendering of an array/string index as a property key. -/
def natKey (i : Nat) : Str := (toString i).toList

/-- Indexed own properties of an array. -/
def enumArrFields : Nat → List JSVal → List (Str × JSVal)
  | _, [] => []
  | i, x :: t => (natKey i, x) :: enumArrFields (i + 1) t

/-- Indexed own properties of a string (one single-character string each). -/
def enumStrFields : Nat → Str → List (Str × JSVal)
  | _, [] => []
  | i, c :: t => (natKey i, .str [c]) :: enumStrFields (i + 1) t

/-- The own enumerable properties contributed by `{...v}`: an object spreads
its fields, an array or a string spreads its indexed elements, and the
primitives spread nothing. -/
def jsOwnFields : JSVal → List (Str × JSVal)
  | .obj fs => fs
  | .arr xs => enumArrFields 0 xs
  | .str s => enumStrFields 0 s
  | _ => []

/-- A canonical (base-10, no leading zero) array index, as JavaScript treats
numeric string keys. -/
def parseIndex (k : Str) : Option Nat :=
  if decide (k ≠ []) && k.all isDigitC && (k == ['0'] || !(k.head? == some '0')) then
    some (digitsToNat k)
  else none

def lengthKey : Str := ['l', 'e', 'n', 'g', 't', 'h']

/-- JavaScript property read `v[key]`: a `TypeError` on `null`/`undefined`,
a lookup (yielding `undefined` when absent) on objects, index/`length`
behaviour on arrays and strings, `undefined` on the other primitives. -/
def jsMember (v : JSVal) (key : Str) : Except String JSVal :=
  match v with
  | .null => .error ("TypeError: Cannot read properties of null")
  | .undefined => .error ("TypeError: Cannot read properties of undefined")
  | .obj fs => .ok ((jsLookup fs key).getD .undefined)
  | .arr xs =>
    .ok (if key = lengthKey then .num (xs.length : Int) 0
         else match parseIndex key with
              | some i => xs.getD i .undefined
              | none => .undefined)
  | .str s =>
    .ok (if key = lengthKey then .num (s.length : Int) 0
         else match parseIndex key with
              | some i =>
                match s.getD i ' ', decide (i < s.length) with
                | c, true => .str [c]
                | _, false => .undefined
              | none => .undefined)
  | _ => .ok .undefined

/-- JavaScript truthiness of the values `JSON.parse` can produce. -/
def jsTruthy : JSVal → Bool
  | .null => false
  | .undefined => false
  | .bool b => b
  | .num m _ => decide (m ≠ 0)
  | .str s => decide (s ≠ [])
  | .arr _ => true
  | .obj _ => true

/-- JavaScript `a || b`. -/
def jsOr (a b : JSVal) : JSVal := if jsTruthy a then a else b

/-! ## The normalizer (`analyzeContract`, part_002 lines 146-162) -/

def risksKey : Str := ['r', 'i', 's', 'k', 's']
def overallScoreKey : Str := ['o', 'v', 'e', 'r', 'a', 'l', 'l', 'S', 'c', 'o', 'r', 'e']
def totalClausesKey : Str := ['t', 'o', 't', 'a', 'l', 'C', 'l', 'a', 'u', 's', 'e', 's']
def revisedSectionsKey : Str :=
  ['r', 'e', 'v', 'i', 's', 'e', 'd', 'S', 'e', 'c', 't', 'i', 'o', 'n', 's']
def idKey : Str := ['i', 'd']

/-- The synthetic identifier `risk-${index + 1}` for the 0-based `index`. -/
def riskIdStr (index : Nat) : Str :=
  ['r', 'i', 's', 'k', '-'] ++ (toString (index + 1)).toList

/-- The object literal built for each risk entry, `{...risk, id: ...}` with the synthetic identifier set last. -/
def spreadWithId (index : Nat) (risk : JSVal) : JSVal :=
  .obj (jsSet (jsOwnFields risk) idKey (.str (riskIdStr index)))

/-- The map `analysisData.risks.map((risk, index) => ({...risk, id: ...}))`,
carrying the running 0-based index. -/
def addRiskIdsFrom : Nat → List JSVal → List JSVal
  | _, [] => []
  | i, risk :: rest => spreadWithId i risk :: addRiskIdsFrom (i + 1) rest

def addRiskIds (risks : List JSVal) : List JSVal := addRiskIdsFrom 0 risks

/-- Calling `.map` on the `risks` member: only an array has it. -/
def jsRisksMap : JSVal → Except String (List JSVal)
  | .arr xs => .ok (addRiskIds xs)
  | _ => .error ("TypeError: analysisData.risks.map is not a function")

/-- The normalized result object returned by `analyzeContract`. -/
structure AnalysisResultM where
  risks : List JSVal
  overallScore : JSVal
  totalClauses : JSVal
  originalText : Str
  revisedSections : JSVal

/-- Lines 146-162 of part_002: clean the raw response, `JSON.parse` it, add
the synthetic risk ids, and build the result object (with
`analysisData.revisedSections || []`). -/
def parseAndNormalize (contractText response : Str) : Except String AnalysisResultM :=
  match jsonParse (jsTrim (stripFences response)) with
  | .error e => .error e
  | .ok analysisData =>
    match jsMember analysisData risksKey with
    | .error e => .error e
    | .ok risksVal =>
      match jsRisksMap risksVal with
      | .error e => .error e
      | .ok risksWithIds =>
        match jsMember analysisData overallScoreKey with
        | .error e => .error e
        | .ok score =>
          match jsMember analysisData totalClausesKey with
          | .error e => .error e
          | .ok total =>
            match jsMember analysisData revisedSectionsKey with
            | .error e => .error e
            | .ok revised =>
              .ok { risks := risksWithIds, overallScore := score, totalClauses := total,
                    originalText := contractText,
                    revisedSections := jsOr revised (.arr []) }

/-! ## `analyzeContract` (part_002 lines 67-173) -/

def groqKeyMissingMsg : String :=
  "Groq API key not found. Please add VITE_GROQ_API_KEY to your .env file."

def noResponseMsg : String := "No response from AI analysis"

/-- Model of `analyzeContract`, with the environment credential and the completion
endpoint as explicit inputs.  The returned `Bool` records whether the
completion endpoint was invoked.  `getGroqClient` throws before any network
request when the key is absent (or empty, which is falsy); afterwards one
request happens.  The prompt template of lines 68-124 only feeds the
completion endpoint and never influences the returned value, so it is not
materialized here; the request outcome `completion` is either a transport
error, a
missing/empty message content (falsy, on which line 143 throws), or the raw
response text handed to the parser.  The surrounding `try/catch` re-throws
every `Error` unchanged, so it is the identity on this model's errors. -/
def analyzeContract (apiKey : Option String) (completion : Except String (Option Str))
    (contractText : Str) : Bool × Except String AnalysisResultM :=
  match apiKey with
  | none => (false, .error groqKeyMissingMsg)
  | some key =>
    if key = "" then (false, .error groqKeyMissingMsg)
    else
      (true,
        match completion with
        | .error e => .error e
        | .ok none => .error noResponseMsg
        | .ok (some []) => .error noResponseMsg
        | .ok (some response) => parseAndNormalize contractText response)

/-! ## `extractTextFromFile` (part_002 lines 39-65) -/

def pdfMime : String := "application/pdf"
def docxMime : String :=
  "application/vnd.openxmlformats-officedocument.wordprocessingml.document"
def plainMime : String := "text/plain"

def pdfNotSupportedMsg : String :=
  "PDF files are not yet supported. Please convert your contract to a DOCX file or copy/paste the text into a new Word document and upload that instead."
def docxReadErrorMsg : String :=
  "Error reading DOCX file. Please ensure the file is not corrupted."
def textReadErrorMsg : String := "Error reading text file"
def unsupportedTypeMsg : String :=
  "Unsupported file type. Please upload a DOCX or TXT file."

/-- Outcome of text extraction: whether the branch read the file contents
(`file.arrayBuffer()` / `readAsText`), and the result or thrown error. -/
structure ExtractOutcome where
  contentRead : Bool
  result : Except String Str

/-- Model of `extractTextFromFile`: dispatch on the declared MIME type string.  The
`mammoth` DOCX library and the `FileReader` are oracles; their failure
payloads are discarded by the code (it throws its own fixed messages). -/
def extractTextFromFile (fileType : String) (docxExtract : Except Unit Str)
    (textRead : Except Unit Str) : ExtractOutcome :=
  if fileType = pdfMime then
    { contentRead := false, result := .error pdfNotSupportedMsg }
  else if fileType = docxMime then
    { contentRead := true,
      result := match docxExtract with
                | .ok text => .ok text
                | .error _ => .error docxReadErrorMsg }
  else if fileType = plainMime then
    { contentRead := true,
      result := match textRead with
                | .ok text => .ok text
                | .error _ => .error textReadErrorMsg }
  else
    { contentRead := false, result := .error unsupportedTypeMsg }

/-! ## `handleFileUpload` (App.tsx lines 30-57) -/

def insufficientTextMsg : String :=
  "Unable to extract sufficient text from the file. Please ensure the file contains readable contract text."

/-- The UI state relevant to the claims, after `handleFileUpload` settles:
whether `analyzeContract` was entered, whether the completion endpoint was
invoked, and the final `analysisError` / `analysisResult` state. -/
structure UploadOutcome where
  analyzeInvoked : Bool
  networkInvoked : Bool
  analysisError : Option String
  analysisResult : Option AnalysisResultM

/-- Model of `handleFileUpload`: extract, check
`if (!contractText || contractText.trim().length < 100) throw ...`, then
analyze; the `catch` stores the error message and clears the result. -/
def handleFileUpload (fileType : String) (docxExtract textRead : Except Unit Str)
    (apiKey : Option String) (completion : Except String (Option Str)) : UploadOutcome :=
  match (extractTextFromFile fileType docxExtract textRead).result with
  | .error e =>
    { analyzeInvoked := false, networkInvoked := false,
      analysisError := some e, analysisResult := none }
  | .ok contractText =>
    if contractText = [] ∨ (jsTrim contractText).length < 100 then
      { analyzeInvoked := false, networkInvoked := false,
        analysisError := some insufficientTextMsg, analysisResult := none }
    else
      match analyzeContract apiKey completion contractText with
      | (net, .ok result) =>
        { analyzeInvoked := true, networkInvoked := net,
          analysisError := none, analysisResult := some result }
      | (net, .error e) =>
        { analyzeInvoked := true, networkInvoked := net,
          analysisError := some e, analysisResult := none }

/-- The parser/normalizer stage applied to a raw response text, as the
round-trip property reads it: clean the fences, trim, `JSON.parse`. -/
def parseResponse (response : Str) : Except String JSVal :=
  jsonParse (jsTrim (stripFences response))

/-- The fields of an object value (the normalized risks are always objects). -/
def objFields : JSVal → List (Str × JSVal)
  | .obj fs => fs
  | _ => []

/-! ## Concrete sample inputs used as witnesses -/

/-- A well-formed contract text: 150 characters, none of them whitespace. -/
def sampleContract : Str := List.replicate 150 'a'

/-- A text of 101 raw characters that trims to nothing. -/
def sampleSpaces : Str := List.replicate 101 ' '

/-- A small JSON payload. -/
def sampleJson : Str := "\x7b\"a\":1\x7d".toList

def sampleJsonVal : JSVal := .obj [(['a'], .num 1 0)]

/-- A representative AI payload: two risks (the second carrying its own
conflicting `id`), a score, a clause count, and no `revisedSections`. -/
def samplePayload : Str :=
  ("\x7b\"risks\":[\x7b\"type\":\"high\",\"category\":\"Payment Terms\"\x7d,\x7b\"type\":\"low\",\"id\":\"x\"\x7d]," ++
   "\"overallScore\":70,\"totalClauses\":3\x7d").toList

def sampleRisks : List JSVal :=
  [.obj [("type".toList, .str ("high".toList)),
         ("category".toList, .str ("Payment Terms".toList))],
   .obj [("type".toList, .str ("low".toList)), (idKey, .str ['x'])]]

def samplePayloadVal : JSVal :=
  .obj [(risksKey, .arr sampleRisks),
        (overallScoreKey, .num 70 0),
        (totalClausesKey, .num 3 0)]

/-- The result `analyzeContract` builds from `samplePayload`. -/
def sampleResult : AnalysisResultM :=
  { risks :=
      [.obj [("type".toList, .str ("high".toList)),
             ("category".toList, .str ("Payment Terms".toList)),
             (idKey, .str (riskIdStr 0))],
       .obj [("type".toList, .str ("low".toList)), (idKey, .str (riskIdStr 1))]],
    overallScore := .num 70 0,
    totalClauses := .num 3 0,
    originalText := sampleContract,
    revisedSections := .arr [] }

/-- A payload with an empty risks array and nothing else. -/
def sampleNoScore : Str := "\x7b\"risks\":[]\x7d".toList

def sampleNoScoreVal : JSVal := .obj [(risksKey, .arr [])]

/-- Malformed JSON: a trailing comma. -/
def sampleBadJson : Str := "\x7b\"a\":1,\x7d".toList

/-- A syntactically valid JSON payload with no `risks` member. -/
def emptyObjText : Str := "\x7b\x7d".toList

/-! ## Lemmas about the fence stripper -/

/-- If `rest ++ closeFence` begins with `json`, the letters must all come from
`rest`: `closeFence` starts with a newline and contains no letters. -/
theorem append_close_json (rest r : Str)
    (h : rest ++ closeFence = 'j' :: 's' :: 'o' :: 'n' :: r) :
    ∃ t, rest = 'j' :: 's' :: 'o' :: 'n' :: t := by
  rcases rest with _ | ⟨a, _ | ⟨b, _ | ⟨c, _ | ⟨d, t⟩⟩⟩⟩ <;> simp_all [closeFence]

/-- If `rest ++ closeFence` begins with two backticks and `json`, so does
`rest`. -/
theorem append_close_ttjson (rest r : Str)
    (h : rest ++ closeFence = '`' :: '`' :: 'j' :: 's' :: 'o' :: 'n' :: r) :
    ∃ t, rest = '`' :: '`' :: 'j' :: 's' :: 'o' :: 'n' :: t := by
  rcases rest with _ | ⟨a, _ | ⟨b, _ | ⟨c, _ | ⟨d, _ | ⟨e, _ | ⟨f, t⟩⟩⟩⟩⟩⟩ <;>
    simp_all [closeFence]

/-- If `rest ++ closeFence` begins with three backticks, so does `rest`. -/
theorem append_close_ttt (rest r : Str)
    (h : rest ++ closeFence = '`' :: '`' :: '`' :: r) :
    ∃ t, rest = '`' :: '`' :: '`' :: t := by
  rcases rest with _ | ⟨a, _ | ⟨b, _ | ⟨c, t⟩⟩⟩ <;> simp_all [closeFence]

/-- If `rest ++ closeFence` begins with two backticks, so does `rest`. -/
theorem append_close_tt (rest r : Str)
    (h : rest ++ closeFence = '`' :: '`' :: r) :
    ∃ t, rest = '`' :: '`' :: t := by
  rcases rest with _ | ⟨a, _ | ⟨b, t⟩⟩ <;> simp_all [closeFence]

/-- Appending the closing fence `\n\x60\x60\x60` never changes the stripped
text: the global replace always removes exactly the appended characters, even
when the payload ends in a partial fence. -/
theorem stripFences_append_close :
    ∀ js : Str, stripFences (js ++ closeFence) = stripFences js := by
  intro js
  induction js using stripFences.induct with
  | case1 rest ih =>
      simpa [stripFences] using ih
  | case2 rest hne ih =>
      rcases rest with _ | ⟨c, t⟩
      · decide
      · have hc : c ≠ '\n' := fun h => hne t (by rw [h])
        have gL : ∀ r1 : List Char, c :: (t ++ closeFence) = '\n' :: r1 → False := by
          intro r1 hr
          injection hr with h1 _
          exact hc h1
        have step1 : stripFences (('`' :: '`' :: '`' :: 'j' :: 's' :: 'o' :: 'n' :: c :: t)
              ++ closeFence)
            = stripFences ((c :: t) ++ closeFence) := by
          simp only [List.cons_append]
          simp only [List.cons_append] at gL
          exact stripFences.eq_2 _ gL
        have step2 : stripFences ('`' :: '`' :: '`' :: 'j' :: 's' :: 'o' :: 'n' :: c :: t)
            = stripFences (c :: t) := stripFences.eq_2 _ hne
        rw [step1, step2]
        exact ih
  | case3 rest ih =>
      simpa [stripFences] using ih
  | case4 rest h1 h2 ih =>
      have gA : ∀ r1 : List Char,
          rest ++ closeFence = 'j' :: 's' :: 'o' :: 'n' :: '\n' :: r1 → False := by
        intro r1 hr
        obtain ⟨t, ht⟩ := append_close_json rest ('\n' :: r1) hr
        exact h2 t ht
      have gB : ∀ r1 : List Char,
          rest ++ closeFence = 'j' :: 's' :: 'o' :: 'n' :: r1 → False := by
        intro r1 hr
        obtain ⟨t, ht⟩ := append_close_json rest r1 hr
        exact h2 t ht
      have step1 : stripFences (('`' :: '`' :: '`' :: rest) ++ closeFence)
          = stripFences (rest ++ closeFence) := by
        simp only [List.cons_append]
        exact stripFences.eq_4 _ gA gB
      have step2 : stripFences ('`' :: '`' :: '`' :: rest) = stripFences rest :=
        stripFences.eq_4 _ h1 h2
      rw [step1, step2]
      exact ih
  | case5 c rest g1 g2 g3 g4 ih =>
      have gA : ∀ r1 : List Char, c = '`' →
          rest ++ closeFence = '`' :: '`' :: 'j' :: 's' :: 'o' :: 'n' :: '\n' :: r1 → False := by
        intro r1 hc hr
        obtain ⟨t, ht⟩ := append_close_ttjson rest ('\n' :: r1) hr
        exact g2 t hc ht
      have gB : ∀ r1 : List Char, c = '`' →
          rest ++ closeFence = '`' :: '`' :: 'j' :: 's' :: 'o' :: 'n' :: r1 → False := by
        intro r1 hc hr
        obtain ⟨t, ht⟩ := append_close_ttjson rest r1 hr
        exact g2 t hc ht
      have gC : ∀ r1 : List Char, c = '\n' →
          rest ++ closeFence = '`' :: '`' :: '`' :: r1 → False := by
        intro r1 hc hr
        obtain ⟨t, ht⟩ := append_close_ttt rest r1 hr
        exact g3 t hc ht
      have gD : ∀ r1 : List Char, c = '`' →
          rest ++ closeFence = '`' :: '`' :: r1 → False := by
        intro r1 hc hr
        obtain ⟨t, ht⟩ := append_close_tt rest r1 hr
        exact g4 t hc ht
      have step1 : stripFences ((c :: rest) ++ closeFence)
          = c :: stripFences (rest ++ closeFence) := by
        simp only [List.cons_append]
        exact stripFences.eq_5 c _ gA gB gC gD
      have step2 : stripFences (c :: rest) = c :: stripFences rest :=
        stripFences.eq_5 c _ g1 g2 g3 g4
      rw [step1, step2, ih]
  | case6 => decide

/-- Stripping a payload wrapped with the `json`-tagged fence gives exactly the
stripped payload: the opening fence is one whole regex match, and the closing
fence is removed by `stripFences_append_close`. -/
theorem stripFences_wrapJson (j : Str) :
    stripFences (wrapJsonFence j) = stripFences j := by
  have h1 : stripFences (wrapJsonFence j) = stripFences (j ++ closeFence) := by
    simp only [wrapJsonFence, List.cons_append, List.nil_append]
    exact stripFences.eq_1 _
  rw [h1, stripFences_append_close]

/-- Stripping a payload wrapped with the untagged fence gives the stripped
payload preceded by the leftover newline of the opening fence, provided the
payload does not itself begin with three backticks. -/
theorem stripFences_wrapBare (j : Str)
    (hj : ∀ t : Str, j ≠ '`' :: '`' :: '`' :: t) :
    stripFences (wrapBareFence j) = '\n' :: stripFences j := by
  have g1 : ∀ r1 : List Char,
      ('\n' :: (j ++ closeFence)) = 'j' :: 's' :: 'o' :: 'n' :: '\n' :: r1 → False := by
    intro r1 hr
    injection hr with h1 _
    exact absurd h1 (by decide)
  have g2 : ∀ r1 : List Char,
      ('\n' :: (j ++ closeFence)) = 'j' :: 's' :: 'o' :: 'n' :: r1 → False := by
    intro r1 hr
    injection hr with h1 _
    exact absurd h1 (by decide)
  have step1 : stripFences (wrapBareFence j)
      = stripFences ('\n' :: (j ++ closeFence)) := by
    simp only [wrapBareFence, List.cons_append, List.nil_append]
    exact stripFences.eq_4 _ g1 g2
  have gA : ∀ r1 : List Char, ('\n' : Char) = '`' →
      j ++ closeFence = '`' :: '`' :: 'j' :: 's' :: 'o' :: 'n' :: '\n' :: r1 → False := by
    intro r1 hc _
    exact absurd hc (by decide)
  have gB : ∀ r1 : List Char, ('\n' : Char) = '`' →
      j ++ closeFence = '`' :: '`' :: 'j' :: 's' :: 'o' :: 'n' :: r1 → False := by
    intro r1 hc _
    exact absurd hc (by decide)
  have gC : ∀ r1 : List Char, ('\n' : Char) = '\n' →
      j ++ closeFence = '`' :: '`' :: '`' :: r1 → False := by
    intro r1 _ hr
    obtain ⟨t, ht⟩ := append_close_ttt j r1 hr
    exact hj t ht
  have gD : ∀ r1 : List Char, ('\n' : Char) = '`' →
      j ++ closeFence = '`' :: '`' :: r1 → False := by
    intro r1 hc _
    exact absurd hc (by decide)
  have step2 : stripFences ('\n' :: (j ++ closeFence))
      = '\n' :: stripFences (j ++ closeFence) :=
    stripFences.eq_5 '\n' _ gA gB gC gD
  rw [step1, step2, stripFences_append_close]

/-! ## Lemmas about `jsTrim` -/

theorem jsTrim_cons_newline (s : Str) : jsTrim ('\n' :: s) = jsTrim s := by
  simp [jsTrim, List.dropWhile]
  rfl

theorem jsTrim_length_le (s : Str) : (jsTrim s).length ≤ s.length := by
  have h1 : (jsTrim s).length
      = ((s.dropWhile jsWhitespace).reverse.dropWhile jsWhitespace).length := by
    simp [jsTrim]
  have h2 : ((s.dropWhile jsWhitespace).reverse.dropWhile jsWhitespace).length
      ≤ (s.dropWhile jsWhitespace).reverse.length :=
    ((List.dropWhile_suffix _).sublist).length_le
  have h3 : (s.dropWhile jsWhitespace).reverse.length
      = (s.dropWhile jsWhitespace).length := List.length_reverse _
  have h4 : (s.dropWhile jsWhitespace).length ≤ s.length :=
    ((List.dropWhile_suffix _).sublist).length_le
  omega

theorem jsTrim_nil : jsTrim [] = [] := rfl

/-! ## Lemmas about `jsonParse` -/

theorem skipWs_backtick (t : Str) : skipWs ('`' :: t) = '`' :: t := by
  simp [skipWs, List.dropWhile, isJsonWs]

theorem parseValue_backtick (fuel : Nat) (t : Str) :
    parseValue fuel ('`' :: t) = none := by
  cases fuel with
  | zero => rfl
  | succ n => simp [parseValue, isDigitC]

/-- The parser rejects any text that begins with a backtick: a backtick is
not JSON whitespace and starts no JSON value. -/
theorem jsonParse_backtick (t : Str) :
    jsonParse ('`' :: t) = .error ("SyntaxError: Unexpected token in JSON") := by
  simp [jsonParse, skipWs_backtick, parseValue_backtick]

/-! ## Lemmas about property update and lookup -/

theorem jsLookup_map_preserve (fs : List (Str × JSVal)) (key : Str) (v : JSVal) :
    jsLookup (fs.map (fun p => if p.1 = key then (p.1, v) else p)) key =
      (jsLookup fs key).map (fun _ => v) := by
  induction fs with
  | nil => rfl
  | cons p fs ih =>
    simp only [List.map_cons]
    by_cases hp : p.1 = key
    · rw [if_pos hp]
      simp only [jsLookup, ih]
      cases hl : jsLookup fs key with
      | some w => simp
      | none => simp [hp]
    · rw [if_neg hp]
      simp only [jsLookup, ih]
      cases hl : jsLookup fs key with
      | some w => simp
      | none => simp [hp]

theorem jsLookup_isSome_of_any (fs : List (Str × JSVal)) (key : Str)
    (h : fs.any (fun p => decide (p.1 = key)) = true) :
    (jsLookup fs key).isSome := by
  induction fs with
  | nil => simp at h
  | cons p fs ih =>
    simp only [List.any_cons, Bool.or_eq_true, decide_eq_true_eq] at h
    simp only [jsLookup]
    cases hl : jsLookup fs key with
    | some w => rfl
    | none =>
      rcases h with h | h
      · simp [h]
      · have := ih h
        rw [hl] at this
        simp at this

theorem jsLookup_append_single (fs : List (Str × JSVal)) (key : Str) (v : JSVal) :
    jsLookup (fs ++ [(key, v)]) key = some v := by
  induction fs with
  | nil => simp [jsLookup]
  | cons p fs ih => simp [jsLookup, ih]

/-- After `{...fs, key: v}` the property `key` reads back as `v`. -/
theorem jsLookup_jsSet_self (fs : List (Str × JSVal)) (key : Str) (v : JSVal) :
    jsLookup (jsSet fs key v) key = some v := by
  unfold jsSet
  split
  · next h =>
    rw [jsLookup_map_preserve]
    have := jsLookup_isSome_of_any fs key h
    cases hl : jsLookup fs key with
    | some w => simp
    | none => rw [hl] at this; simp at this
  · exact jsLookup_append_single fs key v

theorem jsLookup_map_other (fs : List (Str × JSVal)) (key : Str) (v : JSVal)
    (k : Str) (hk : k ≠ key) :
    jsLookup (fs.map (fun p => if p.1 = key then (p.1, v) else p)) k =
      jsLookup fs k := by
  induction fs with
  | nil => rfl
  | cons p fs ih =>
    simp only [List.map_cons]
    by_cases hp : p.1 = key
    · have hpk : p.1 ≠ k := fun he => hk (he ▸ hp)
      rw [if_pos hp]
      simp only [jsLookup, ih]
      cases hl : jsLookup fs k with
      | some w => rfl
      | none => simp [hpk]
    · rw [if_neg hp]
      simp only [jsLookup, ih]

theorem jsLookup_append_single_other (fs : List (Str × JSVal)) (key : Str)
    (v : JSVal) (k : Str) (hk : k ≠ key) :
    jsLookup (fs ++ [(key, v)]) k = jsLookup fs k := by
  induction fs with
  | nil => simp [jsLookup, Ne.symm hk]
  | cons p fs ih => simp [jsLookup, ih]

/-- Spread-updating `{...fs, key: v}` leaves every other property unchanged. -/
theorem jsLookup_jsSet_other (fs : List (Str × JSVal)) (key : Str) (v : JSVal)
    (k : Str) (hk : k ≠ key) :
    jsLookup (jsSet fs key v) k = jsLookup fs k := by
  unfold jsSet
  split
  · exact jsLookup_map_other fs key v k hk
  · exact jsLookup_append_single_other fs key v k hk

/-! ## Lemmas about the risk-id assignment -/

theorem addRiskIdsFrom_length (i : Nat) (rs : List JSVal) :
    (addRiskIdsFrom i rs).length = rs.length := by
  induction rs generalizing i with
  | nil => rfl
  | cons r rs ih => simp [addRiskIdsFrom, ih]

theorem addRiskIdsFrom_getD (rs : List JSVal) (i j : Nat) (h : j < rs.length) :
    (addRiskIdsFrom i rs).getD j .undefined = spreadWithId (i + j) (rs.getD j .undefined) := by
  induction rs generalizing i j with
  | nil => simp at h
  | cons r rs ih =>
    cases j with
    | zero => simp [addRiskIdsFrom]
    | succ j =>
      simp only [addRiskIdsFrom, List.getD_cons_succ]
      rw [ih (i + 1) j (by simpa using h)]
      congr 1
      omega

/-! ## Lemmas about the normalizer -/

/-- A value on which some property read succeeds is neither `null` nor
`undefined`, so every property read on it succeeds. -/
theorem jsMember_ok_of_ok (d : JSVal) (k0 : Str) (w0 : JSVal)
    (h : jsMember d k0 = .ok w0) (k : Str) : ∃ w, jsMember d k = .ok w := by
  cases d with
  | null => simp [jsMember] at h
  | undefined => simp [jsMember] at h
  | bool b => exact ⟨_, rfl⟩
  | num m e => exact ⟨_, rfl⟩
  | str s => exact ⟨_, rfl⟩
  | arr xs => exact ⟨_, rfl⟩
  | obj fs => exact ⟨_, rfl⟩

/-- Master shape of a successful normalization: whenever the cleaned response
parses and its `risks` member is an array, `parseAndNormalize` succeeds and
builds exactly the object of lines 156-162. -/
theorem parseAndNormalize_ok (ct resp : Str) (d : JSVal) (rs : List JSVal)
    (score total revised : JSVal)
    (hp : jsonParse (jsTrim (stripFences resp)) = .ok d)
    (hr : jsMember d risksKey = .ok (.arr rs))
    (hs : jsMember d overallScoreKey = .ok score)
    (ht : jsMember d totalClausesKey = .ok total)
    (hv : jsMember d revisedSectionsKey = .ok revised) :
    parseAndNormalize ct resp =
      .ok { risks := addRiskIds rs, overallScore := score, totalClauses := total,
            originalText := ct, revisedSections := jsOr revised (.arr []) } := by
  simp only [parseAndNormalize, hp, hr, hs, ht, hv, jsRisksMap]

/-! ## Claims -/

/-- C1: For every JSON text `j`, parsing the response obtained by wrapping `j`
in a fenced code block (triple backtick, optionally with a `json` language
tag, before and after) yields the same parsed value as parsing `j` directly:
`parse(wrap(j)) = parse(j)` for every `j` that parses as JSON. -/
theorem fence_wrap_roundtrip (j : Str) (v : JSVal)
    (hj : jsonParse j = Except.ok v) :
    parseResponse (wrapJsonFence j) = parseResponse j ∧
    parseResponse (wrapBareFence j) = parseResponse j := by
  constructor
  · unfold parseResponse
    rw [stripFences_wrapJson]
  · unfold parseResponse
    have hj3 : ∀ t : Str, j ≠ '`' :: '`' :: '`' :: t := by
      intro t ht
      rw [ht, jsonParse_backtick] at hj
      exact absurd hj (by simp)
    rw [stripFences_wrapBare j hj3, jsTrim_cons_newline]

theorem fence_wrap_roundtrip_witness :
    jsonParse sampleJson = Except.ok sampleJsonVal ∧
    parseResponse (wrapJsonFence sampleJson) = parseResponse sampleJson ∧
    parseResponse (wrapBareFence sampleJson) = parseResponse sampleJson :=
  ⟨rfl, (fence_wrap_roundtrip sampleJson sampleJsonVal rfl).1,
    (fence_wrap_roundtrip sampleJson sampleJsonVal rfl).2⟩

/-- C2: For every extracted text shorter than 100 characters, the pipeline
(`handleFileUpload`) aborts with an error before the analysis client is
invoked: `analyzeContract` is never entered, hence no network request is
issued, the error is stored and the result stays cleared. -/
theorem short_extracted_text_aborts (fileType : String)
    (docxExtract textRead : Except Unit Str) (apiKey : Option String)
    (completion : Except String (Option Str)) (t : Str)
    (hex : (extractTextFromFile fileType docxExtract textRead).result = .ok t)
    (hlen : t.length < 100) :
    (handleFileUpload fileType docxExtract textRead apiKey completion).analyzeInvoked
        = false ∧
    (handleFileUpload fileType docxExtract textRead apiKey completion).networkInvoked
        = false ∧
    (handleFileUpload fileType docxExtract textRead apiKey completion).analysisError
        = some insufficientTextMsg ∧
    (handleFileUpload fileType docxExtract textRead apiKey completion).analysisResult
        = none := by
  have hg : t = [] ∨ (jsTrim t).length < 100 :=
    Or.inr (lt_of_le_of_lt (jsTrim_length_le t) hlen)
  simp only [handleFileUpload, hex, if_pos hg]
  exact ⟨trivial, trivial, trivial, trivial⟩

theorem short_extracted_text_aborts_witness :
    (handleFileUpload plainMime (Except.error ()) (Except.ok ['h', 'i'])
        (some ("k")) (Except.ok none)).analyzeInvoked = false ∧
    (handleFileUpload plainMime (Except.error ()) (Except.ok ['h', 'i'])
        (some ("k")) (Except.ok none)).networkInvoked = false ∧
    (handleFileUpload plainMime (Except.error ()) (Except.ok ['h', 'i'])
        (some ("k")) (Except.ok none)).analysisError = some insufficientTextMsg ∧
    (handleFileUpload plainMime (Except.error ()) (Except.ok ['h', 'i'])
        (some ("k")) (Except.ok none)).analysisResult = none :=
  short_extracted_text_aborts plainMime (Except.error ()) (Except.ok ['h', 'i'])
    (some ("k")) (Except.ok none) ['h', 'i'] rfl (by decide)

/-- C5: If the API credential is absent from the environment,
`analyzeContract` fails with the configuration error, and the completion
endpoint is never invoked — for every contract text and every possible
completion outcome. -/
theorem missing_api_key_no_network (completion : Except String (Option Str))
    (contractText : Str) :
    analyzeContract none completion contractText
      = (false, Except.error groqKeyMissingMsg) := rfl

/-- C6: `extractTextFromFile` dispatches strictly on the declared MIME type:
`text/plain` is read verbatim (or fails with the read error), the DOCX MIME
type delegates to the parsing library and fails with the format error if the
library throws, the PDF MIME type always fails immediately with the
descriptive not-implemented error without reading the file contents, and
every other MIME type fails with the unsupported-format error. -/
theorem extract_dispatch_on_mime (docxExtract textRead : Except Unit Str) :
    (∀ txt, textRead = .ok txt →
      extractTextFromFile plainMime docxExtract textRead
        = { contentRead := true, result := .ok txt }) ∧
    (textRead = .error () →
      extractTextFromFile plainMime docxExtract textRead
        = { contentRead := true, result := .error textReadErrorMsg }) ∧
    (∀ txt, docxExtract = .ok txt →
      extractTextFromFile docxMime docxExtract textRead
        = { contentRead := true, result := .ok txt }) ∧
    (docxExtract = .error () →
      extractTextFromFile docxMime docxExtract textRead
        = { contentRead := true, result := .error docxReadErrorMsg }) ∧
    (extractTextFromFile pdfMime docxExtract textRead
        = { contentRead := false, result := .error pdfNotSupportedMsg }) ∧
    (∀ mime : String, mime ≠ pdfMime → mime ≠ docxMime → mime ≠ plainMime →
      extractTextFromFile mime docxExtract textRead
        = { contentRead := false, result := .error unsupportedTypeMsg }) := by
  refine ⟨?_, ?_, ?_, ?_, ?_, ?_⟩
  · intro txt h
    subst h
    simp only [extractTextFromFile]
    rw [if_neg (by decide), if_neg (by decide)]
    simp
  · intro h
    subst h
    simp only [extractTextFromFile]
    rw [if_neg (by decide), if_neg (by decide)]
    simp
  · intro txt h
    subst h
    simp only [extractTextFromFile]
    rw [if_neg (by decide)]
    simp
  · intro h
    subst h
    simp only [extractTextFromFile]
    rw [if_neg (by decide)]
    simp
  · simp [extractTextFromFile]
  · intro mime h1 h2 h3
    simp only [extractTextFromFile]
    rw [if_neg h1, if_neg h2, if_neg h3]

theorem extract_dispatch_on_mime_witness :
    extractTextFromFile plainMime (Except.ok ['d']) (Except.ok ['t'])
      = { contentRead := true, result := .ok ['t'] } ∧
    extractTextFromFile plainMime (Except.ok ['d']) (Except.error ())
      = { contentRead := true, result := .error textReadErrorMsg } ∧
    extractTextFromFile docxMime (Except.ok ['d']) (Except.ok ['t'])
      = { contentRead := true, result := .ok ['d'] } ∧
    extractTextFromFile docxMime (Except.error ()) (Except.ok ['t'])
      = { contentRead := true, result := .error docxReadErrorMsg } ∧
    extractTextFromFile pdfMime (Except.ok ['d']) (Except.ok ['t'])
      = { contentRead := false, result := .error pdfNotSupportedMsg } ∧
    extractTextFromFile ("image/png") (Except.ok ['d']) (Except.ok ['t'])
      = { contentRead := false, result := .error unsupportedTypeMsg } :=
  ⟨(extract_dispatch_on_mime (Except.ok ['d']) (Except.ok ['t'])).1 ['t'] rfl,
   (extract_dispatch_on_mime (Except.ok ['d']) (Except.error ())).2.1 rfl,
   (extract_dispatch_on_mime (Except.ok ['d']) (Except.ok ['t'])).2.2.1 ['d'] rfl,
   (extract_dispatch_on_mime (Except.error ()) (Except.ok ['t'])).2.2.2.1 rfl,
   (extract_dispatch_on_mime (Except.ok ['d']) (Except.ok ['t'])).2.2.2.2.1,
   (extract_dispatch_on_mime (Except.ok ['d']) (Except.ok ['t'])).2.2.2.2.2
     ("image/png") (by decide) (by decide) (by decide)⟩

/-- C10: The minimum-length guard is evaluated on the whitespace-trimmed
extracted text with a strict less-than comparison: an extracted text whose
trimmed length is exactly 100 proceeds to analysis, while an extracted text
of 100 or more raw characters whose trimmed length is below 100 aborts the
pipeline. -/
theorem trim_guard_boundary :
    (∀ (fileType : String) (docxExtract textRead : Except Unit Str)
        (apiKey : Option String) (completion : Except String (Option Str)) (t : Str),
      (extractTextFromFile fileType docxExtract textRead).result = .ok t →
      (jsTrim t).length = 100 →
      (handleFileUpload fileType docxExtract textRead apiKey completion).analyzeInvoked
        = true) ∧
    (∀ (fileType : String) (docxExtract textRead : Except Unit Str)
        (apiKey : Option String) (completion : Except String (Option Str)) (t : Str),
      (extractTextFromFile fileType docxExtract textRead).result = .ok t →
      100 ≤ t.length →
      (jsTrim t).length < 100 →
      (handleFileUpload fileType docxExtract textRead apiKey completion).analyzeInvoked
          = false ∧
      (handleFileUpload fileType docxExtract textRead apiKey completion).analysisError
          = some insufficientTextMsg) := by
  constructor
  · intro fileType docxExtract textRead apiKey completion t hex h100
    have hg : ¬(t = [] ∨ (jsTrim t).length < 100) := by
      rintro (h | h)
      · subst h
        simp [jsTrim_nil] at h100
      · omega
    simp only [handleFileUpload, hex, if_neg hg]
    rcases hA : analyzeContract apiKey completion t with ⟨net, res⟩
    cases res <;> simp [hA]
  · intro fileType docxExtract textRead apiKey completion t hex _ htrim
    have hg : t = [] ∨ (jsTrim t).length < 100 := Or.inr htrim
    simp only [handleFileUpload, hex, if_pos hg]
    exact ⟨trivial, trivial⟩

theorem trim_guard_boundary_witness :
    ((handleFileUpload plainMime (Except.error ()) (Except.ok (List.replicate 100 'a'))
        (some ("k")) (Except.ok none)).analyzeInvoked = true) ∧
    ((handleFileUpload plainMime (Except.error ()) (Except.ok sampleSpaces)
        (some ("k")) (Except.ok none)).analyzeInvoked = false ∧
     (handleFileUpload plainMime (Except.error ()) (Except.ok sampleSpaces)
        (some ("k")) (Except.ok none)).analysisError = some insufficientTextMsg) :=
  ⟨trim_guard_boundary.1 plainMime (Except.error ()) (Except.ok (List.replicate 100 'a'))
     (some ("k")) (Except.ok none) (List.replicate 100 'a') rfl (by decide),
   trim_guard_boundary.2 plainMime (Except.error ()) (Except.ok sampleSpaces)
     (some ("k")) (Except.ok none) sampleSpaces rfl (by decide) (by decide)⟩

/-- C4: For every raw response text that does not parse as JSON after fence
stripping, the parser stage fails with a malformed-response error, and the
calling pipeline catches it and reports an analysis error to the caller (the
error message is stored, the result is cleared) rather than letting an
unhandled exception escape. -/
theorem malformed_response_reported (fileType : String)
    (docxExtract textRead : Except Unit Str) (key : String) (t resp : Str)
    (m : String)
    (hkey : key ≠ "")
    (hex : (extractTextFromFile fileType docxExtract textRead).result = .ok t)
    (hlen : 100 ≤ (jsTrim t).length)
    (hresp : resp ≠ [])
    (hbad : parseResponse resp = .error m) :
    analyzeContract (some key) (.ok (some resp)) t = (true, .error m) ∧
    (handleFileUpload fileType docxExtract textRead (some key)
        (.ok (some resp))).analysisError = some m ∧
    (handleFileUpload fileType docxExtract textRead (some key)
        (.ok (some resp))).analysisResult = none := by
  have hpn : parseAndNormalize t resp = .error m := by
    unfold parseResponse at hbad
    simp only [parseAndNormalize, hbad]
  have hA : analyzeContract (some key) (.ok (some resp)) t = (true, .error m) := by
    rcases resp with _ | ⟨c, rs⟩
    · exact absurd rfl hresp
    · simp only [analyzeContract]
      rw [if_neg hkey, hpn]
  have hg : ¬(t = [] ∨ (jsTrim t).length < 100) := by
    rintro (h | h)
    · subst h
      simp [jsTrim_nil] at hlen
    · omega
  refine ⟨hA, ?_, ?_⟩
  · simp only [handleFileUpload, hex, if_neg hg, hA]
  · simp only [handleFileUpload, hex, if_neg hg, hA]

set_option maxRecDepth 4000 in
theorem malformed_response_reported_witness :
    analyzeContract (some ("k")) (.ok (some sampleBadJson)) sampleContract
      = (true, .error ("SyntaxError: Unexpected token in JSON")) ∧
    (handleFileUpload plainMime (Except.error ()) (Except.ok sampleContract)
        (some ("k")) (.ok (some sampleBadJson))).analysisError
      = some "SyntaxError: Unexpected token in JSON" ∧
    (handleFileUpload plainMime (Except.error ()) (Except.ok sampleContract)
        (some ("k")) (.ok (some sampleBadJson))).analysisResult = none :=
  malformed_response_reported plainMime (Except.error ()) (Except.ok sampleContract)
    "k" sampleContract sampleBadJson ("SyntaxError: Unexpected token in JSON")
    (by decide) rfl (by decide) (by decide) rfl

/-- C3: For every parsed payload whose `risks` array has `N` entries, the
normalized result contains exactly `N` risks in the same array order, where
the entry at 0-based position `i` carries the identifier `risk-(i+1)`
regardless of its content (an entry-supplied `id` is overridden), and every
other own property of each entry is passed through unmodified — no
validation, no enum checking of severity or category. -/
theorem risk_ids_assigned (ct resp : Str) (d : JSVal) (rs : List JSVal)
    (hp : parseResponse resp = .ok d)
    (hr : jsMember d risksKey = .ok (.arr rs)) :
    ∃ res, parseAndNormalize ct resp = .ok res ∧
      res.risks.length = rs.length ∧
      ∀ i, i < rs.length →
        jsLookup (objFields (res.risks.getD i .undefined)) idKey
            = some (.str (riskIdStr i)) ∧
        ∀ k1, k1 ≠ idKey →
          jsLookup (objFields (res.risks.getD i .undefined)) k1
            = jsLookup (jsOwnFields (rs.getD i .undefined)) k1 := by
  unfold parseResponse at hp
  obtain ⟨score, hs⟩ := jsMember_ok_of_ok d risksKey _ hr overallScoreKey
  obtain ⟨total, ht⟩ := jsMember_ok_of_ok d risksKey _ hr totalClausesKey
  obtain ⟨revised, hv⟩ := jsMember_ok_of_ok d risksKey _ hr revisedSectionsKey
  refine ⟨_, parseAndNormalize_ok ct resp d rs score total revised hp hr hs ht hv,
    ?_, ?_⟩
  · show (addRiskIds rs).length = rs.length
    simpa [addRiskIds] using addRiskIdsFrom_length 0 rs
  · intro i hi
    have hgd : (addRiskIds rs).getD i .undefined = spreadWithId i (rs.getD i .undefined) := by
      have h := addRiskIdsFrom_getD rs 0 i hi
      simpa [addRiskIds] using h
    constructor
    · show jsLookup (objFields ((addRiskIds rs).getD i .undefined)) idKey = _
      rw [hgd]
      exact jsLookup_jsSet_self _ _ _
    · intro k1 hk1
      show jsLookup (objFields ((addRiskIds rs).getD i .undefined)) k1 = _
      rw [hgd]
      exact jsLookup_jsSet_other _ _ _ _ hk1

set_option maxRecDepth 4000 in
theorem risk_ids_assigned_witness :
    ∃ res, parseAndNormalize sampleContract samplePayload = .ok res ∧
      res.risks.length = sampleRisks.length ∧
      ∀ i, i < sampleRisks.length →
        jsLookup (objFields (res.risks.getD i .undefined)) idKey
            = some (.str (riskIdStr i)) ∧
        ∀ k1, k1 ≠ idKey →
          jsLookup (objFields (res.risks.getD i .undefined)) k1
            = jsLookup (jsOwnFields (sampleRisks.getD i .undefined)) k1 :=
  risk_ids_assigned sampleContract samplePayload samplePayloadVal sampleRisks rfl rfl

/-- C7 (counterexample): the payload `\x7b\x7d` parses as JSON and its
`revisedSections` key is absent (the member read yields `undefined`), yet
normalization fails rather than succeeding with an empty sequence: the code
first calls `.map` on the missing `risks` member and throws.  So the claim
"for every parsed payload in which the `revisedSections` key is absent,
normalization succeeds" is false on the code. -/
theorem revised_sections_counterexample :
    jsonParse emptyObjText = .ok (.obj []) ∧
    jsMember (.obj []) revisedSectionsKey = .ok .undefined ∧
    parseAndNormalize ['c'] emptyObjText
      = .error ("TypeError: analysisData.risks.map is not a function") :=
  ⟨rfl, rfl, rfl⟩

/-- C7 (amended): for every parsed payload whose `risks` member is an array,
normalization succeeds, and when the `revisedSections` key is absent (the
member read yields `undefined`) the result has an empty `revisedSections`
sequence, not a failure; when the key is present as an array, that array is
returned in order. -/
theorem revised_sections_default (ct resp : Str) (d : JSVal) (rs : List JSVal)
    (hp : parseResponse resp = .ok d)
    (hr : jsMember d risksKey = .ok (.arr rs)) :
    ∃ res, parseAndNormalize ct resp = .ok res ∧
      (jsMember d revisedSectionsKey = .ok .undefined → res.revisedSections = .arr []) ∧
      (∀ xs, jsMember d revisedSectionsKey = .ok (.arr xs) →
        res.revisedSections = .arr xs) := by
  unfold parseResponse at hp
  obtain ⟨score, hs⟩ := jsMember_ok_of_ok d risksKey _ hr overallScoreKey
  obtain ⟨total, ht⟩ := jsMember_ok_of_ok d risksKey _ hr totalClausesKey
  obtain ⟨revised, hv⟩ := jsMember_ok_of_ok d risksKey _ hr revisedSectionsKey
  refine ⟨_, parseAndNormalize_ok ct resp d rs score total revised hp hr hs ht hv,
    ?_, ?_⟩
  · intro h
    rw [hv] at h
    have hrev : revised = .undefined := Except.ok.inj h
    show jsOr revised (.arr []) = .arr []
    rw [hrev]
    simp [jsOr, jsTruthy]
  · intro xs h
    rw [hv] at h
    have hrev : revised = .arr xs := Except.ok.inj h
    show jsOr revised (.arr []) = .arr xs
    rw [hrev]
    simp [jsOr, jsTruthy]

set_option maxRecDepth 4000 in
theorem revised_sections_default_witness :
    ∃ res, parseAndNormalize sampleContract samplePayload = .ok res ∧
      res.revisedSections = .arr [] := by
  obtain ⟨res, h1, h2, h3⟩ := revised_sections_default sampleContract samplePayload
    samplePayloadVal sampleRisks rfl rfl
  exact ⟨res, h1, h2 rfl⟩

/-- C8 (counterexample): the payload `{}` is syntactically valid JSON, yet
normalization does not succeed — reading `.map` off the missing `risks`
member throws, so the claim "for every syntactically valid JSON payload,
normalization succeeds" is false on the code. -/
theorem schema_gap_counterexample :
    jsonParse emptyObjText = .ok (.obj []) ∧
    parseAndNormalize sampleContract emptyObjText
      = .error ("TypeError: analysisData.risks.map is not a function") :=
  ⟨rfl, rfl⟩

/-- C8 (amended): beyond JSON parsing, the only shape requirement is that the
`risks` member is an array; under that condition normalization succeeds for
every payload, and a missing expected field such as `overallScore` or
`totalClauses` surfaces as an `undefined` value in the result rather than as
an explicit parse failure. -/
theorem missing_fields_pass_through (ct resp : Str) (d : JSVal) (rs : List JSVal)
    (hp : parseResponse resp = .ok d)
    (hr : jsMember d risksKey = .ok (.arr rs)) :
    ∃ res, parseAndNormalize ct resp = .ok res ∧
      (jsMember d overallScoreKey = .ok .undefined → res.overallScore = .undefined) ∧
      (jsMember d totalClausesKey = .ok .undefined → res.totalClauses = .undefined) := by
  unfold parseResponse at hp
  obtain ⟨score, hs⟩ := jsMember_ok_of_ok d risksKey _ hr overallScoreKey
  obtain ⟨total, ht⟩ := jsMember_ok_of_ok d risksKey _ hr totalClausesKey
  obtain ⟨revised, hv⟩ := jsMember_ok_of_ok d risksKey _ hr revisedSectionsKey
  refine ⟨_, parseAndNormalize_ok ct resp d rs score total revised hp hr hs ht hv,
    ?_, ?_⟩
  · intro h
    rw [hs] at h
    exact Except.ok.inj h
  · intro h
    rw [ht] at h
    exact Except.ok.inj h

set_option maxRecDepth 4000 in
theorem missing_fields_pass_through_witness :
    ∃ res, parseAndNormalize sampleContract sampleNoScore = .ok res ∧
      res.overallScore = .undefined ∧ res.totalClauses = .undefined := by
  obtain ⟨res, h1, h2, h3⟩ := missing_fields_pass_through sampleContract sampleNoScore
    sampleNoScoreVal [] rfl rfl
  exact ⟨res, h1, h2 rfl, h3 rfl⟩

/-- C9: For every contract text and every successfully parsed and normalized
payload, the result's `originalText` equals the contract text passed in, and
its `overallScore` and `totalClauses` equal the corresponding members of the
parsed payload. -/
theorem result_fields_from_payload (ct resp : Str) (d : JSVal)
    (res : AnalysisResultM)
    (hp : parseResponse resp = .ok d)
    (hn : parseAndNormalize ct resp = .ok res) :
    res.originalText = ct ∧
    jsMember d overallScoreKey = .ok res.overallScore ∧
    jsMember d totalClausesKey = .ok res.totalClauses := by
  unfold parseResponse at hp
  simp only [parseAndNormalize, hp] at hn
  cases h1 : jsMember d risksKey with
  | error e => simp [h1] at hn
  | ok riskVal =>
    cases h2 : jsRisksMap riskVal with
    | error e => simp [h1, h2] at hn
    | ok withIds =>
      cases h3 : jsMember d overallScoreKey with
      | error e => simp [h1, h2, h3] at hn
      | ok score =>
        cases h4 : jsMember d totalClausesKey with
        | error e => simp [h1, h2, h3, h4] at hn
        | ok total =>
          cases h5 : jsMember d revisedSectionsKey with
          | error e => simp [h1, h2, h3, h4, h5] at hn
          | ok revised =>
            simp only [h1, h2, h3, h4, h5, Except.ok.injEq] at hn
            subst hn
            exact ⟨rfl, rfl, rfl⟩

set_option maxRecDepth 4000 in
theorem result_fields_from_payload_witness :
    sampleResult.originalText = sampleContract ∧
    jsMember samplePayloadVal overallScoreKey = .ok sampleResult.overallScore ∧
    jsMember samplePayloadVal totalClausesKey = .ok sampleResult.totalClauses :=
  result_fields_from_payload sampleContract samplePayload samplePayloadVal
    sampleResult rfl rfl
